import Mathlib

/-!
Verification of the document-processing pipeline of `process_docs.py`
(thesis_classifier). The Python functions are embedded shallowly:

* pure helpers (`filter_text`, the vector-lookup loops) become Lean functions;
* external NLP components (the spacy tokenizer, the flair POS tagger and the
  WordNet lemmatizer) become oracle parameters;
* a raised Python exception (KeyError, IndexError, ValueError) is modelled by
  `Option`/`Except` failure;
* vector components are kept as their source strings: no claim depends on the
  numeric value of a vector component, only on which lines parse as floats and
  on which tokens receive a vector.
-/

namespace ThesisClassifier

/-- Python str.rstrip with no argument: drop trailing whitespace characters. -/
def pyRstrip (s : String) : String :=
  String.mk (s.data.reverse.dropWhile Char.isWhitespace).reverse

/-- Helper for Python str.split with an explicit single-space separator:
split a character list at every space, keeping empty fields, accumulating the
current field in reverse. -/
def splitSpaceAux : List Char → List Char → List (List Char)
  | [], cur => [cur.reverse]
  | c :: rest, cur =>
    if c = ' ' then cur.reverse :: splitSpaceAux rest []
    else splitSpaceAux rest (c :: cur)

/-- Python str.split(' '): split on each space, keeping empty fields.  The
result is always non-empty, so indexing the first field never fails. -/
def pySplitSpace (s : String) : List String :=
  (splitSpaceAux s.data []).map String.mk

/-- Python str.lower, modelled character-wise with the ASCII case mapping (the
texts exercised by the claims are ASCII). -/
def pyLower (s : String) : String :=
  String.mk (s.data.map Char.toLower)

/-- string.ascii_lowercase, imported as `letters` in process_docs.py. -/
def ascii_lowercase : List Char := "abcdefghijklmnopqrstuvwxyz".data

/-- filter_text from process_docs.py: a token is kept when it has more than
two characters from `ascii_lowercase` and is not a stopword; kept tokens are
appended to the accumulator in order. -/
def filter_text (text : List String) (stopwords : List String) : List String :=
  text.foldl
    (fun filtered token =>
      let cnt_letters := (token.data.map (fun char => if char ∈ ascii_lowercase then 1 else 0)).sum
      if 2 < cnt_letters ∧ token ∉ stopwords then filtered ++ [token] else filtered)
    []

/-- Membership in the ascii_lowercase list is exactly the character interval
from 'a' to 'z'. -/
theorem mem_ascii_lowercase_iff (c : Char) :
    c ∈ ascii_lowercase ↔ ('a' ≤ c ∧ c ≤ 'z') := by
  constructor
  · intro h
    fin_cases h <;> exact ⟨by decide, by decide⟩
  · rintro ⟨h1, h2⟩
    have hn1 : 97 ≤ c.toNat := h1
    have hn2 : c.toNat ≤ 122 := h2
    have hr : c.toNat ∈ List.range' 97 26 := by
      rw [List.mem_range'_1]
      omega
    have hall : ∀ n ∈ List.range' 97 26, Char.ofNat n ∈ ascii_lowercase := by decide
    have := hall c.toNat hr
    rwa [Char.ofNat_toNat] at this

/-- Folding append-if into an accumulator is filtering. -/
theorem foldl_append_if_eq_filter (p : String → Prop) [DecidablePred p]
    (l : List String) (acc : List String) :
    l.foldl (fun filtered token => if p token then filtered ++ [token] else filtered) acc
      = acc ++ l.filter (fun token => decide (p token)) := by
  induction l generalizing acc with
  | nil => simp
  | cons a l ih =>
    by_cases hp : p a
    · simp [List.foldl_cons, hp, ih]
    · simp [List.foldl_cons, hp, ih]

/-- Summing the indicator of a predicate over a list counts the predicate. -/
theorem sum_indicator_eq_countP (p : Char → Prop) [DecidablePred p] (l : List Char) :
    (l.map (fun c => if p c then 1 else 0)).sum = l.countP (fun c => decide (p c)) := by
  induction l with
  | nil => simp
  | cons a l ih =>
    by_cases hp : p a
    · simp [hp, ih, List.countP_cons]
      omega
    · simp [hp, ih, List.countP_cons]

/-- A flair token after tagging: the surface text and the values of its
labels.  `token.labels[0].value` reads the first label value. -/
structure Token where
  text : String
  labels : List String
deriving DecidableEq

/-- nltk wordnet.ADJ. -/
def wordnet_ADJ : String := "a"

/-- nltk wordnet.NOUN. -/
def wordnet_NOUN : String := "n"

/-- nltk wordnet.VERB. -/
def wordnet_VERB : String := "v"

/-- nltk wordnet.ADV. -/
def wordnet_ADV : String := "r"

/-- tag_dict of DataProcessor.process, as the membership-plus-lookup it is
used for: the four coarse POS tags that are lemmatized, mapped to their
wordnet categories. -/
def tag_dict (v : String) : Option String :=
  if v = "ADJ" then some wordnet_ADJ
  else if v = "NOUN" then some wordnet_NOUN
  else if v = "VERB" then some wordnet_VERB
  else if v = "ADV" then some wordnet_ADV
  else none

/-- DataProcessor.process: given a tagged sentence, lower-case every token and
lemmatize those whose first label is in tag_dict.  `token.labels[0]` raises an
IndexError when a token carries no label; a raised error is modelled as
`none`.  The lemmatizer is an oracle parameter (word, wordnet POS ↦ lemma). -/
def process (lemmatize : String → String → String) : List Token → Option (List String)
  | [] => some []
  | token :: rest =>
    match token.labels with
    | [] => none
    | l0 :: _ =>
      let lem :=
        match tag_dict l0 with
        | some pos => lemmatize (pyLower token.text) pos
        | none => pyLower token.text
      (process lemmatize rest).map (fun lemmas => lem :: lemmas)

/-- A document as read by process_docs: raw text and a subject-label list. -/
structure RawDoc where
  data : String
  subjects : List String
deriving DecidableEq

/-- A processed or filtered document: a token list and a subject-label list. -/
structure TokDoc where
  data : List String
  subjects : List String
deriving DecidableEq

/-- A vectorized document of grouped mode: the found vectors (components kept
as their source strings) and the subject-label list. -/
structure VecDoc where
  data : List (List String)
  subjects : List String
deriving DecidableEq

/-- A grouped corpus file: a JSON object from subject keys to document
lists, in key order. -/
abbrev Corpus (α : Type) : Type := List (String × List α)

/-- Sequencing of a fallible mapping over a list, mirroring a Python loop
that appends per element and aborts the whole run on a raised exception. -/
def traverseOpt {α β : Type} (f : α → Option β) : List α → Option (List β)
  | [] => some []
  | a :: l =>
    match f a with
    | none => none
    | some b => (traverseOpt f l).map (fun bs => b :: bs)

/-- DataProcessor.process_docs: process every document of every subject group,
keeping its subjects.  The composition of Sentence construction and
tagger.predict is the oracle `tokTag`, mapping the raw text to its tagged
token list. -/
def process_docs (tokTag : String → List Token) (lemmatize : String → String → String)
    (docs : Corpus RawDoc) : Option (Corpus TokDoc) :=
  traverseOpt
    (fun g =>
      (traverseOpt
        (fun doc => (process lemmatize (tokTag doc.data)).map
          (fun d => TokDoc.mk d doc.subjects)) g.2).map
        (fun ds => (g.1, ds)))
    docs

/-- The per-file body of filter_docs: filter every document's tokens with
filter_text, keeping its subjects. -/
def filter_docs_file (stopwords : List String) (processed : Corpus TokDoc) : Corpus TokDoc :=
  processed.map (fun g =>
    (g.1, g.2.map (fun doc => TokDoc.mk (filter_text doc.data stopwords) doc.subjects)))

/-- The token-to-vector loop shared by get_vecs and vectorize_repos: look up
each token, appending the vector when found and nothing otherwise. -/
def lookupVecs (pretrained : String → Option (List String)) (data : List String) :
    List (List String) :=
  data.foldl
    (fun acc w =>
      match pretrained w with
      | some v => acc ++ [v]
      | none => acc)
    []

/-- The per-file body of get_vecs: for every subject group and every document,
look the document's stored tokens up directly in the pretrained table (no
normalization or filtering happens in get_vecs), keeping its subjects. -/
def get_vecs_file (pretrained : String → Option (List String)) (docs : Corpus TokDoc) :
    Corpus VecDoc :=
  docs.map (fun g =>
    (g.1, g.2.map (fun doc => VecDoc.mk (lookupVecs pretrained doc.data) doc.subjects)))

/-- doc_folder of process_docs: the raw documents read as input. -/
def process_docs_doc_folder : String := "data/openalex/docs"

/-- dump_folder of process_docs. -/
def process_docs_dump_folder : String := "data/openalex/processed_docs"

/-- processed_folder of filter_docs. -/
def filter_docs_processed_folder : String := "data/openalex/processed_docs"

/-- dump_folder of filter_docs: where the noise-filtered documents go. -/
def filter_docs_dump_folder : String := "data/openalex/filtered_docs"

/-- docs_folder of get_vecs: the folder whose files get_vecs vectorizes. -/
def get_vecs_docs_folder : String := "data/openalex/docs"

/-- vecs_folder of get_vecs. -/
def get_vecs_vecs_folder : String := "data/openalex/vecs"

/-- Digits-only non-empty character list. -/
def isUnsignedInt (cs : List Char) : Bool :=
  !cs.isEmpty && cs.all Char.isDigit

/-- Optionally signed non-empty digit run. -/
def isSignedInt : List Char → Bool
  | [] => false
  | c :: rest =>
    if c = '+' || c = '-' then isUnsignedInt rest else isUnsignedInt (c :: rest)

/-- Unsigned part of a Python float literal: digits with an optional fraction
or a leading dot with digits, then an optional exponent. -/
def isUnsignedFloat (cs : List Char) : Bool :=
  let ip := cs.takeWhile Char.isDigit
  match cs.dropWhile Char.isDigit with
  | [] => !ip.isEmpty
  | '.' :: rest =>
    (!ip.isEmpty || !(rest.takeWhile Char.isDigit).isEmpty) &&
      (match rest.dropWhile Char.isDigit with
       | [] => true
       | e :: ex => (e = 'e' || e = 'E') && isSignedInt ex)
  | e :: ex => (e = 'e' || e = 'E') && !ip.isEmpty && isSignedInt ex

/-- Model of Python float() acceptance on a vector-file field: an optionally
signed decimal literal with optional fraction and exponent.  (Python also
accepts inf, nan, underscores and surrounding whitespace; none occur in the
claims' inputs, and the model only needs to accept well-formed decimal fields
and reject non-numeric ones.) -/
def isPyFloat (s : String) : Bool :=
  match s.data with
  | [] => false
  | c :: rest =>
    if c = '+' || c = '-' then isUnsignedFloat rest else isUnsignedFloat (c :: rest)

/-- Fields of one line of the vector file: Python
`tokens = line.rstrip().split(' ')`. -/
def vecLineFields (line : String) : List String :=
  pySplitSpace (pyRstrip line)

/-- The key a vector-file line stores under: `tokens[0]`.  split always
returns at least one field, so the default is never used. -/
def lineKey (line : String) : String :=
  (vecLineFields line).headD ""

/-- A vector-file line is well formed when every value field parses as a
float, mirroring `list(map(float, tokens[1:]))` succeeding. -/
def vecLineOk (line : String) : Bool :=
  (vecLineFields line).tail.all isPyFloat

/-- The loading loop of the pretrained table (identical in get_vecs and
vectorize_repos): each line stores its value fields under its first field;
`float` raising a ValueError on a non-numeric field aborts the whole load,
modelled as `Except.error`.  The table is the dictionary as a lookup
function, later lines overriding earlier ones with the same key. -/
def loadLines (table : String → Option (List String)) :
    List String → Except Unit (String → Option (List String))
  | [] => Except.ok table
  | line :: rest =>
    let tokens := vecLineFields line
    let vals := tokens.tail
    if vals.all isPyFloat then
      loadLines (fun w => if w = tokens.headD "" then some vals else table w) rest
    else Except.error ()

/-- Loading the pretrained vector table from the data lines of the file (the
header line has already been skipped by `fin.readline()`). -/
def loadPretrained (lines : List String) : Except Unit (String → Option (List String)) :=
  loadLines (fun _ => none) lines

/-- A repository document record of the data file of vectorize_repos: a JSON
object whose fields hold either null or a token list.  A key lookup `data[t]`
raises a KeyError when the key is absent, modelled by a failed
`List.lookup`. -/
abbrev RepoRec : Type := List (String × Option (List String))

/-- One output entry of flat-batched mode: the document key and its found
vectors. -/
abbrev VrEntry : Type := String × List (List String)

/-- The texts accumulation of vectorize_repos: concatenate the non-null
'title' and 'abstract' fields.  The statement `if len(texts) == 0: continue`
sits inside the loop over ('title', 'abstract'), so it only skips the already
empty remainder of that inner iteration; it never skips the document, and the
net effect is the plain concatenation, failing exactly when a key is
missing. -/
def vrTexts (r : RepoRec) : Option (List String) := do
  let title ← r.lookup "title"
  let abstract ← r.lookup "abstract"
  pure (title.getD [] ++ abstract.getD [])

/-- The document loop of vectorize_repos with its trailing flush: state is the
current batch `vecs` (the input is a JSON object, so document keys are
distinct and `vecs[doc] = []` always creates a fresh entry, modelled as an
append), the processed-document count `cnt` and the next file number; the
batch is flushed when `cnt % 2000 == 0`, and a final non-empty partial batch
is flushed after the loop. -/
def vrGo (pretrained : String → Option (List String)) (stopwords : List String) :
    List (String × RepoRec) → List VrEntry → Nat → Nat →
      Option (List (Nat × List VrEntry))
  | [], vecs, _, file_nr => some (if 0 < vecs.length then [(file_nr, vecs)] else [])
  | (doc, r) :: rest, vecs, cnt, file_nr =>
    match vrTexts r with
    | none => none
    | some texts =>
      let filtered := filter_text texts stopwords
      let entry : VrEntry := (doc, lookupVecs pretrained filtered)
      let vecs' := vecs ++ [entry]
      let cnt' := cnt + 1
      if cnt' % 2000 = 0 then
        (vrGo pretrained stopwords rest [] cnt' (file_nr + 1)).map
          (fun out => (file_nr, vecs') :: out)
      else
        vrGo pretrained stopwords rest vecs' cnt' file_nr

/-- vectorize_repos as a function of the parsed data file, the pretrained
table and the stopword set: the numbered batch files it writes, or a failure
when a record lacks a looked-up key. -/
def vectorize_repos (pretrained : String → Option (List String)) (stopwords : List String)
    (data : List (String × RepoRec)) : Option (List (Nat × List VrEntry)) :=
  vrGo pretrained stopwords data [] 0 1

/-- Size-level skeleton of the batching loop: from the number of remaining
documents, the current batch size, the count and the next file number, the
list of (file number, entry count) pairs the loop writes. -/
def vrSizes : Nat → Nat → Nat → Nat → List (Nat × Nat)
  | 0, v, _, file_nr => if 0 < v then [(file_nr, v)] else []
  | m + 1, v, cnt, file_nr =>
    if (cnt + 1) % 2000 = 0 then (file_nr, v + 1) :: vrSizes m 0 (cnt + 1) (file_nr + 1)
    else vrSizes m (v + 1) (cnt + 1) file_nr

/-- Spec-side keep predicate of claim C5: strictly more than two ASCII
lower-case letters (a-z only) and not a member of the stopword set. -/
def keepTokenSpec (stopwords : List String) (token : String) : Prop :=
  2 < token.data.countP (fun c => decide ('a' ≤ c ∧ c ≤ 'z')) ∧ token ∉ stopwords

instance (stopwords : List String) : DecidablePred (keepTokenSpec stopwords) :=
  fun _ => inferInstanceAs (Decidable (_ ∧ _))

/-- Spec-side per-token rule of claim C6: a token whose first (coarse POS)
label is one of the four open categories is emitted as the lemma of its
lower-cased surface form under the mapped wordnet category; any other token is
emitted as its lower-cased surface form unchanged. -/
def normToken (lemmatize : String → String → String) (token : Token) : String :=
  match tag_dict (token.labels.headD "") with
  | some pos => lemmatize (pyLower token.text) pos
  | none => pyLower token.text

/-- Congruence of the vector-lookup loop in the table argument. -/
theorem lookupVecs_congr_aux (t1 t2 : String → Option (List String)) :
    ∀ (tokens : List String) (acc : List (List String)),
      (∀ w ∈ tokens, t1 w = t2 w) →
      List.foldl (fun acc w => match t1 w with | some v => acc ++ [v] | none => acc) acc tokens
        = List.foldl (fun acc w => match t2 w with | some v => acc ++ [v] | none => acc)
            acc tokens := by
  intro tokens
  induction tokens with
  | nil => intro acc _; rfl
  | cons w rest ih =>
    intro acc h
    simp only [List.foldl_cons]
    rw [h w (List.mem_cons_self _ _)]
    exact ih _ (fun u hu => h u (List.mem_cons_of_mem _ hu))

/-- C5: filter_text is exactly the order-preserving filter of its input by the
keep predicate (more than two a-z characters and not a stopword), hence a
subsequence of the input. -/
theorem C5_filter_text_keeps_exactly (T S : List String) :
    filter_text T S = T.filter (fun t => decide (keepTokenSpec S t)) ∧
      (filter_text T S).Sublist T := by
  have h1 : filter_text T S
      = [] ++ T.filter (fun token => decide
          (2 < (token.data.map (fun char => if char ∈ ascii_lowercase then 1 else 0)).sum
            ∧ token ∉ S)) :=
    foldl_append_if_eq_filter
      (fun token =>
        2 < (token.data.map (fun char => if char ∈ ascii_lowercase then 1 else 0)).sum
          ∧ token ∉ S) T []
  have h2 : ∀ t : String,
      (t.data.map (fun char => if char ∈ ascii_lowercase then 1 else 0)).sum
        = t.data.countP (fun c => decide ('a' ≤ c ∧ c ≤ 'z')) := by
    intro t
    rw [sum_indicator_eq_countP (fun c => c ∈ ascii_lowercase)]
    exact List.countP_congr (fun c _ => by simp [mem_ascii_lowercase_iff])
  have hmain : filter_text T S = T.filter (fun t => decide (keepTokenSpec S t)) := by
    rw [h1, List.nil_append]
    refine List.filter_congr (fun t _ => ?_)
    exact decide_eq_decide.mpr (by rw [h2 t]; exact Iff.rfl)
  exact ⟨hmain, hmain ▸ List.filter_sublist T⟩

/-- C6: under the precondition that every token carries at least one label,
normalization succeeds and maps each input token, in order and one-to-one, to
the spec-side per-token rule; in particular the output length is the
tokenizer's token count. -/
theorem C6_normalize_token_wise (lemmatize : String → String → String) (s : List Token)
    (h : ∀ t ∈ s, t.labels ≠ []) :
    process lemmatize s = some (s.map (normToken lemmatize)) ∧
      ∀ out, process lemmatize s = some out → out.length = s.length := by
  have hmain : process lemmatize s = some (s.map (normToken lemmatize)) := by
    induction s with
    | nil => simp [process]
    | cons t rest ih =>
      obtain ⟨l0, ls, hl⟩ := List.exists_cons_of_ne_nil (h t (List.mem_cons_self _ _))
      have hrest := ih (fun u hu => h u (List.mem_cons_of_mem _ hu))
      simp [process, hl, hrest, normToken]
  refine ⟨hmain, fun out hout => ?_⟩
  rw [hmain] at hout
  cases hout
  simp

/-- C6 witness: a concrete three-token sentence with VERB, NOUN and PUNCT
tags, every token labelled. -/
theorem C6_normalize_token_wise_witness :
    (∀ t ∈ [Token.mk "Running" ["VERB"], Token.mk "Dogs" ["NOUN"], Token.mk "," ["PUNCT"]],
      t.labels ≠ []) ∧
    process (fun w _ => w)
        [Token.mk "Running" ["VERB"], Token.mk "Dogs" ["NOUN"], Token.mk "," ["PUNCT"]]
      = some ([Token.mk "Running" ["VERB"], Token.mk "Dogs" ["NOUN"],
          Token.mk "," ["PUNCT"]].map (normToken (fun w _ => w))) :=
  ⟨by decide,
   (C6_normalize_token_wise (fun w _ => w)
     [Token.mk "Running" ["VERB"], Token.mk "Dogs" ["NOUN"], Token.mk "," ["PUNCT"]]
     (by decide)).1⟩

/-- C9: normalization reads the first label of every token, so it is total on
sentences whose tokens all carry at least one label, and a token with zero
labels makes the access fail (modelled as none). -/
theorem C9_first_label_access :
    (∀ (lemmatize : String → String → String) (s : List Token),
        (∀ t ∈ s, t.labels ≠ []) → (process lemmatize s).isSome) ∧
    process (fun w _ => w) [Token.mk "x" []] = none := by
  constructor
  · intro lemmatize s h
    induction s with
    | nil => simp [process]
    | cons t rest ih =>
      obtain ⟨l0, ls, hl⟩ := List.exists_cons_of_ne_nil (h t (List.mem_cons_self _ _))
      have hrest := ih (fun u hu => h u (List.mem_cons_of_mem _ hu))
      obtain ⟨out, hout⟩ := Option.isSome_iff_exists.mp hrest
      simp [process, hl, hout]
  · rfl

/-- C9 witness: the totality half applied to a concrete labelled sentence,
next to the concrete zero-label failure. -/
theorem C9_first_label_access_witness :
    (process (fun w _ => w) [Token.mk "ran" ["VERB"]]).isSome = true ∧
    process (fun w _ => w) [Token.mk "x" []] = none :=
  ⟨C9_first_label_access.1 (fun w _ => w) [Token.mk "ran" ["VERB"]] (by decide),
   C9_first_label_access.2⟩

/-- C8: the vector-lookup loop depends only on the table's extensional
content at the looked-up tokens, so two runs over the same table and the same
token sequence return the same ordered vector sequence. -/
theorem C8_lookup_deterministic (t1 t2 : String → Option (List String))
    (tokens : List String) (h : ∀ w ∈ tokens, t1 w = t2 w) :
    lookupVecs t1 tokens = lookupVecs t2 tokens :=
  lookupVecs_congr_aux t1 t2 tokens [] h

/-- Concrete table for the C8 witness. -/
def c8Table1 : String → Option (List String) :=
  fun w => if w = "cat" then some ["0.25"] else none

/-- Second concrete table for the C8 witness, syntactically different but
agreeing with the first on the looked-up tokens. -/
def c8Table2 : String → Option (List String) :=
  fun w => if w = "dog" then some ["0.75"] else if w = "cat" then some ["0.25"] else none

/-- C8 witness: the two concrete tables agree on the token sequence, so the
lookups coincide. -/
theorem C8_lookup_deterministic_witness :
    (∀ w ∈ ["the", "cat"], c8Table1 w = c8Table2 w) ∧
    lookupVecs c8Table1 ["the", "cat"] = lookupVecs c8Table2 ["the", "cat"] :=
  ⟨by decide, C8_lookup_deterministic c8Table1 c8Table2 ["the", "cat"] (by decide)⟩

/-- Subjects shape of a raw corpus: grouping keys with each document's
subject-label list. -/
def rawSubjects (c : Corpus RawDoc) : List (String × List (List String)) :=
  c.map (fun g => (g.1, g.2.map RawDoc.subjects))

/-- Subjects shape of a processed or filtered corpus. -/
def tokSubjects (c : Corpus TokDoc) : List (String × List (List String)) :=
  c.map (fun g => (g.1, g.2.map TokDoc.subjects))

/-- Subjects shape of a vectorized corpus. -/
def vecSubjects (c : Corpus VecDoc) : List (String × List (List String)) :=
  c.map (fun g => (g.1, g.2.map VecDoc.subjects))

/-- A successful fallible traversal maps projections: whenever the per-element
results agree on a projection, so do the lists. -/
theorem traverseOpt_proj {α β γ : Type} (f : α → Option β) (p : β → γ) (q : α → γ)
    (hf : ∀ a b, f a = some b → p b = q a) :
    ∀ (l : List α) (out : List β), traverseOpt f l = some out → out.map p = l.map q := by
  intro l
  induction l with
  | nil =>
    intro out h
    simp only [traverseOpt, Option.some.injEq] at h
    subst h
    rfl
  | cons a l ih =>
    intro out h
    simp only [traverseOpt] at h
    cases hfa : f a with
    | none => rw [hfa] at h; exact absurd h (by simp)
    | some b =>
      rw [hfa] at h
      cases hrest : traverseOpt f l with
      | none => rw [hrest] at h; exact absurd h (by simp)
      | some bs =>
        rw [hrest] at h
        simp at h
        subst h
        simp [List.map_cons, hf a b hfa, ih bs hrest]

/-- C7: every stage of the grouped pipeline preserves the grouping keys and
each document's subject-label list: normalization (whenever it succeeds),
noise filtering, and grouped-mode vectorization. -/
theorem C7_subjects_preserved :
    (∀ (tokTag : String → List Token) (lemmatize : String → String → String)
        (docs : Corpus RawDoc) (out : Corpus TokDoc),
        process_docs tokTag lemmatize docs = some out →
        tokSubjects out = rawSubjects docs) ∧
    (∀ (stopwords : List String) (c : Corpus TokDoc),
        tokSubjects (filter_docs_file stopwords c) = tokSubjects c) ∧
    (∀ (pretrained : String → Option (List String)) (c : Corpus TokDoc),
        vecSubjects (get_vecs_file pretrained c) = tokSubjects c) := by
  refine ⟨?_, ?_, ?_⟩
  · intro tokTag lemmatize docs out h
    refine traverseOpt_proj _ (fun g => (g.1, g.2.map TokDoc.subjects))
      (fun g => (g.1, g.2.map RawDoc.subjects)) ?_ docs out h
    intro g og hg
    cases hinner : traverseOpt
        (fun doc => (process lemmatize (tokTag doc.data)).map
          (fun d => TokDoc.mk d doc.subjects)) g.2 with
    | none => rw [hinner] at hg; exact absurd hg (by simp)
    | some ds =>
      rw [hinner] at hg
      simp at hg
      subst hg
      have hds : ds.map TokDoc.subjects = g.2.map RawDoc.subjects := by
        refine traverseOpt_proj _ TokDoc.subjects RawDoc.subjects ?_ g.2 ds hinner
        intro doc td htd
        cases hp : process lemmatize (tokTag doc.data) with
        | none => rw [hp] at htd; exact absurd htd (by simp)
        | some d =>
          rw [hp] at htd
          simp at htd
          subst htd
          rfl
      simp [hds]
  · intro stopwords c
    simp [tokSubjects, filter_docs_file, List.map_map, Function.comp]
  · intro pretrained c
    simp [vecSubjects, tokSubjects, get_vecs_file, List.map_map, Function.comp]

/-- Concrete tagger oracle for the C7 witness: one NOUN token per text. -/
def c7TokTag : String → List Token := fun s => [Token.mk s ["NOUN"]]

/-- Concrete raw corpus for the C7 witness. -/
def c7Corpus : Corpus RawDoc := [("math", [RawDoc.mk "Hello" ["math", "cs"]])]

/-- Concrete processed corpus the C7 witness normalizes to. -/
def c7Out : Corpus TokDoc := [("math", [TokDoc.mk ["hello"] ["math", "cs"]])]

/-- C7 witness: the three stage conjuncts applied at concrete inputs, the
normalization hypothesis discharged by evaluation. -/
theorem C7_subjects_preserved_witness :
    tokSubjects c7Out = rawSubjects c7Corpus ∧
    tokSubjects (filter_docs_file ["the"] c7Out) = tokSubjects c7Out ∧
    vecSubjects (get_vecs_file (fun _ => none) c7Out) = tokSubjects c7Out :=
  ⟨C7_subjects_preserved.1 c7TokTag (fun w _ => w) c7Corpus c7Out (by decide),
   C7_subjects_preserved.2.1 ["the"] c7Out,
   C7_subjects_preserved.2.2 (fun _ => none) c7Out⟩

/-- A record whose 'title' and 'abstract' lookups both succeed yields some
concatenated texts. -/
theorem vrTexts_isSome_of_keys (r : RepoRec)
    (ht : (r.lookup "title").isSome) (ha : (r.lookup "abstract").isSome) :
    (vrTexts r).isSome := by
  obtain ⟨tv, htv⟩ := Option.isSome_iff_exists.mp ht
  obtain ⟨av, hav⟩ := Option.isSome_iff_exists.mp ha
  simp [vrTexts, htv, hav]

/-- The batching loop succeeds when every record's texts succeed, and its
output's file numbers and batch sizes follow the size-level skeleton. -/
theorem vrGo_sizes (pretrained : String → Option (List String)) (stopwords : List String) :
    ∀ (l : List (String × RepoRec)) (vecs : List VrEntry) (cnt file_nr : Nat),
      (∀ p ∈ l, (vrTexts p.2).isSome) →
      ∃ out, vrGo pretrained stopwords l vecs cnt file_nr = some out ∧
        out.map (fun p => (p.1, p.2.length)) = vrSizes l.length vecs.length cnt file_nr := by
  intro l
  induction l with
  | nil =>
    intro vecs cnt file_nr _
    refine ⟨_, rfl, ?_⟩
    by_cases h : 0 < vecs.length <;> simp [vrGo, vrSizes, h]
  | cons a rest ih =>
    intro vecs cnt file_nr hall
    obtain ⟨doc, r⟩ := a
    obtain ⟨texts, htexts⟩ :=
      Option.isSome_iff_exists.mp (hall (doc, r) (List.mem_cons_self _ _))
    have hrest : ∀ p ∈ rest, (vrTexts p.2).isSome :=
      fun p hp => hall p (List.mem_cons_of_mem _ hp)
    by_cases hc : (cnt + 1) % 2000 = 0
    · obtain ⟨out, hout, hsz⟩ := ih [] (cnt + 1) (file_nr + 1) hrest
      refine ⟨(file_nr, vecs ++ [(doc, lookupVecs pretrained (filter_text texts stopwords))])
        :: out, ?_, ?_⟩
      · simp [vrGo, htexts, hc, hout]
      · simp [vrSizes, hc, hsz]
    · obtain ⟨out, hout, hsz⟩ :=
        ih (vecs ++ [(doc, lookupVecs pretrained (filter_text texts stopwords))])
          (cnt + 1) file_nr hrest
      refine ⟨out, ?_, ?_⟩
      · simp [vrGo, htexts, hc, hout]
      · simp only [List.length_cons, List.length_append, List.length_singleton] at hsz ⊢
        rw [hsz]
        simp [vrSizes, hc]

/-- Concrete input for C1: one document with null title and null abstract. -/
def c1Input : List (String × RepoRec) :=
  [("doc1", [("title", none), ("abstract", none)])]

/-- C1: a document whose title and abstract are both null is NOT skipped by
vectorize_repos: the dead in-loop continue leaves it in, so an entry with an
empty vector list is written for it (and it counts toward the batch). -/
theorem C1_empty_doc_not_skipped :
    vectorize_repos (fun _ => none) [] c1Input = some [(1, [("doc1", [])])] := by
  rfl

/-- Concrete pretrained table for C2, containing the stopword "the". -/
def c2Pretrained : String → Option (List String) :=
  fun w => if w = "the" then some ["0.13"] else none

/-- Concrete stopword set for C2. -/
def c2Stopwords : List String := ["the"]

/-- Concrete grouped corpus for C2: one document holding just the token
"the". -/
def c2Corpus : Corpus TokDoc := [("math", [TokDoc.mk ["the"] ["math"]])]

/-- C2: grouped-mode vectorization does not apply the noise filter before
vector lookup.  get_vecs reads the raw docs folder (the same folder
process_docs reads, not the filter_docs output folder) and looks every stored
token up directly: the token "the", which filter_text would drop, still
contributes a vector. -/
theorem C2_get_vecs_filter_not_applied :
    get_vecs_docs_folder = process_docs_doc_folder ∧
    get_vecs_docs_folder ≠ filter_docs_dump_folder ∧
    filter_text ["the"] c2Stopwords = [] ∧
    get_vecs_file c2Pretrained c2Corpus = [("math", [VecDoc.mk [["0.13"]] ["math"]])] :=
  ⟨rfl, by decide, by decide, by decide⟩

/-- A malformed line anywhere in the input aborts the table load, whatever
table has been accumulated so far. -/
theorem loadLines_error_of_bad :
    ∀ (lines : List String) (table : String → Option (List String)),
      (∃ l ∈ lines, ¬ vecLineOk l = true) → loadLines table lines = Except.error () := by
  intro lines
  induction lines with
  | nil =>
    intro table h
    obtain ⟨l, hl, _⟩ := h
    exact absurd hl (by simp)
  | cons line rest ih =>
    intro table h
    by_cases hok : (vecLineFields line).tail.all isPyFloat
    · obtain ⟨l, hl, hbad⟩ := h
      cases List.mem_cons.mp hl with
      | inl heq =>
        subst heq
        exact absurd hok (by simpa [vecLineOk] using hbad)
      | inr hmem =>
        simp only [loadLines, hok, if_true]
        exact ih _ ⟨l, hmem, hbad⟩
    · simp [loadLines, hok]

/-- When every line is well formed the load completes, the accumulated table
only grows, and every line's key ends up present. -/
theorem loadLines_ok_of_good :
    ∀ (lines : List String) (table : String → Option (List String)),
      (∀ l ∈ lines, vecLineOk l = true) →
      ∃ t, loadLines table lines = Except.ok t ∧
        (∀ w, (table w).isSome → (t w).isSome) ∧
        (∀ l ∈ lines, (t (lineKey l)).isSome) := by
  intro lines
  induction lines with
  | nil =>
    intro table _
    exact ⟨table, rfl, fun w h => h, by simp⟩
  | cons line rest ih =>
    intro table hall
    have hok : (vecLineFields line).tail.all isPyFloat := by
      simpa [vecLineOk] using hall line (List.mem_cons_self _ _)
    obtain ⟨t, ht, hmono, hkeys⟩ :=
      ih (fun w => if w = (vecLineFields line).headD "" then some (vecLineFields line).tail
            else table w)
        (fun l hl => hall l (List.mem_cons_of_mem _ hl))
    refine ⟨t, ?_, ?_, ?_⟩
    · simp only [loadLines, hok, if_true]
      exact ht
    · intro w hw
      refine hmono w ?_
      by_cases hcase : w = (vecLineFields line).headD ""
      · rw [if_pos hcase]
        rfl
      · rw [if_neg hcase]
        exact hw
    · intro l hl
      cases List.mem_cons.mp hl with
      | inl heq =>
        subst heq
        refine hmono (lineKey l) ?_
        simp [lineKey]
      | inr hmem => exact hkeys l hmem

/-- C3 counterexample: an input whose middle line has a non-numeric value
field makes the whole load abort with an error, rather than completing with
the well-formed lines. -/
theorem C3_counterexample_load_aborts :
    loadPretrained ["the 0.13 0.5", "x junk 0.5", "cat 1.0 2.0"] = Except.error () := by
  rfl

/-- C3 amended: a line with a non-numeric value field aborts the whole table
load (the uncaught ValueError of float); when every data line is well formed
the load completes and the table contains every line's key. -/
theorem C3_nonnumeric_aborts_load (lines : List String) :
    ((∃ l ∈ lines, ¬ vecLineOk l = true) → loadPretrained lines = Except.error ()) ∧
    ((∀ l ∈ lines, vecLineOk l = true) →
      ∃ t, loadPretrained lines = Except.ok t ∧ ∀ l ∈ lines, (t (lineKey l)).isSome) := by
  constructor
  · intro h
    exact loadLines_error_of_bad lines _ h
  · intro h
    obtain ⟨t, ht, _, hkeys⟩ := loadLines_ok_of_good lines (fun _ => none) h
    exact ⟨t, ht, hkeys⟩

/-- C3 witness: both halves of the amended claim at concrete inputs: a fully
well-formed file loads with its keys present, and a file with one bad line
aborts. -/
theorem C3_nonnumeric_aborts_load_witness :
    (∃ t, loadPretrained ["the 0.13 0.5"] = Except.ok t ∧
      ∀ l ∈ ["the 0.13 0.5"], (t (lineKey l)).isSome) ∧
    loadPretrained ["x junk 0.5"] = Except.error () :=
  ⟨(C3_nonnumeric_aborts_load ["the 0.13 0.5"]).2 (by decide),
   (C3_nonnumeric_aborts_load ["x junk 0.5"]).1 ⟨"x junk 0.5", by decide⟩⟩

set_option maxRecDepth 100000

/-- C4: with the 2000-document threshold, any 4500-document input whose
records all carry both keys and non-empty concatenated text produces exactly
the files numbered 1, 2, 3, holding 2000, 2000 and 500 entries. -/
theorem C4_flat_batching_4500 (pretrained : String → Option (List String))
    (stopwords : List String) (docs : List (String × RepoRec))
    (hlen : docs.length = 4500)
    (hkeys : ∀ p ∈ docs, ((p.2 : RepoRec).lookup "title").isSome ∧
      ((p.2 : RepoRec).lookup "abstract").isSome)
    (htext : ∀ p ∈ docs, ∀ texts, vrTexts p.2 = some texts → texts ≠ []) :
    ∃ out, vectorize_repos pretrained stopwords docs = some out ∧
      out.map Prod.fst = [1, 2, 3] ∧
      out.map (fun p => p.2.length) = [2000, 2000, 500] := by
  obtain ⟨out, hout, hsz⟩ := vrGo_sizes pretrained stopwords docs [] 0 1
    (fun p hp => vrTexts_isSome_of_keys p.2 (hkeys p hp).1 (hkeys p hp).2)
  rw [hlen] at hsz
  have hval : vrSizes 4500 0 0 1 = [(1, 2000), (2, 2000), (3, 500)] := by decide
  rw [List.length_nil, hval] at hsz
  refine ⟨out, hout, ?_, ?_⟩
  · have := congrArg (List.map Prod.fst) hsz
    simpa [List.map_map, Function.comp] using this
  · have := congrArg (List.map Prod.snd) hsz
    simpa [List.map_map, Function.comp] using this

/-- Concrete record for the C4 witness: a present title and a null
abstract. -/
def c4Record : RepoRec := [("title", some ["abc"]), ("abstract", none)]

/-- Concrete 4500-document input for the C4 witness. -/
def c4Input : List (String × RepoRec) := List.replicate 4500 ("doc", c4Record)

/-- C4 witness: the batching theorem applied to the concrete 4500-document
input. -/
theorem C4_flat_batching_4500_witness :
    c4Input.length = 4500 ∧
    ∃ out, vectorize_repos (fun _ => none) [] c4Input = some out ∧
      out.map Prod.fst = [1, 2, 3] ∧
      out.map (fun p => p.2.length) = [2000, 2000, 500] := by
  have hlen : c4Input.length = 4500 := List.length_replicate 4500 ("doc", c4Record)
  refine ⟨hlen, C4_flat_batching_4500 (fun _ => none) [] c4Input hlen ?_ ?_⟩
  · intro p hp
    have heq : p = ("doc", c4Record) := List.eq_of_mem_replicate hp
    rw [heq]
    exact ⟨by decide, by decide⟩
  · intro p hp texts htexts
    have heq : p = ("doc", c4Record) := List.eq_of_mem_replicate hp
    rw [heq] at htexts
    have hvr : vrTexts c4Record = some ["abc"] := by rfl
    rw [hvr] at htexts
    cases htexts
    decide

/-- C10: vectorize_repos requires both the 'title' and the 'abstract' key of
every record: when every record has both keys (even with null values) the run
completes, and a record lacking one of them makes the run fail on the key
lookup. -/
theorem C10_title_abstract_keys_required :
    (∀ (pretrained : String → Option (List String)) (stopwords : List String)
        (docs : List (String × RepoRec)),
        (∀ p ∈ docs, ((p.2 : RepoRec).lookup "title").isSome ∧
          ((p.2 : RepoRec).lookup "abstract").isSome) →
        (vectorize_repos pretrained stopwords docs).isSome) ∧
    vectorize_repos (fun _ => none) [] [("doc1", [("title", some [])])] = none := by
  constructor
  · intro pretrained stopwords docs h
    obtain ⟨out, hout, _⟩ := vrGo_sizes pretrained stopwords docs [] 0 1
      (fun p hp => vrTexts_isSome_of_keys p.2 (h p hp).1 (h p hp).2)
    simp [vectorize_repos, hout]
  · rfl

/-- C10 witness: the totality half applied to a record with both keys null,
next to the concrete missing-abstract failure. -/
theorem C10_title_abstract_keys_required_witness :
    (vectorize_repos (fun _ => none) [] [("doc2", [("title", none), ("abstract", none)])]).isSome
      = true ∧
    vectorize_repos (fun _ => none) [] [("doc1", [("title", some [])])] = none :=
  ⟨C10_title_abstract_keys_required.1 (fun _ => none) []
      [("doc2", [("title", none), ("abstract", none)])] (by decide),
   C10_title_abstract_keys_required.2⟩

end ThesisClassifier
